import Mathlib

/-!
Shallow embedding of `segvcatcher.c`.

`segvcatcher.c` is a small LD_PRELOAD library that arms a backtracing
SIGSEGV handler after a delay.  Its pieces:

* `handle_segv` — the SIGSEGV handler: writes a notice, captures up to
  `TRACEBUFLEN` frames into a static buffer, prints them, then either
  calls the saved original handler or `_exit((1<<7)|x)`.
* `set_segv` — the SIGUNUSED (handshake) handler: swaps in `handle_segv`
  as the SIGSEGV disposition via `sigaction` and saves the prior
  `sa_handler` in the static `original_segv_handler`.
* `child` — the forked watchdog: re-sleeps until `start_time + DELAY`
  is reached, then sends `IPC_SIG` to the parent once.
* `setup` — the constructor: forks the watchdog and installs `set_segv`
  on `IPC_SIG` with `SA_RESTART | SA_RESETHAND`.

The embedding models signal dispositions, the per-fault behaviour of
`handle_segv` (including the static trace buffer), the watchdog loop
over an arbitrary sequence of clock readings (so interrupted sleeps are
covered), and a process-level step machine for signal deliveries, with
POSIX `sigaction` semantics (`SA_RESETHAND` resets the disposition to
default before the handler runs; delivery on a default disposition of a
termination-default signal such as SIGSYS/SIGUNUSED or SIGSEGV kills
the process).
-/

namespace SegvCatcher

/-- `#define DELAY 3` (seconds). -/
def DELAY : Int := 3

/-- `#define TRACEBUFLEN 64` — maximum number of stack frames to trace. -/
def TRACEBUFLEN : Nat := 64

/-- Signal number of SIGSEGV on Linux. -/
def SIGSEGV : Nat := 11

/-- Signal number of SIGUNUSED (= SIGSYS) on Linux. -/
def SIGUNUSED : Nat := 31

/-- `#define IPC_SIG SIGUNUSED` — the handshake signal. -/
def IPC_SIG : Nat := SIGUNUSED

/-- Identity of a concrete handler function (`void (*)(int)` that is not
a sentinel): the two functions defined by the library, or an opaque
host-provided handler identified by a tag. -/
inductive HandlerFn where
  | handle_segv
  | set_segv
  | host (tag : Nat)
deriving DecidableEq, Repr

/-- A signal disposition / handler pointer value: the sentinels `SIG_DFL`
and `SIG_IGN`, or a pointer to an actual function.  The static
`original_segv_handler` variable has this type (a function pointer may
hold the sentinel values). -/
inductive Disposition where
  | dfl
  | ign
  | custom (f : HandlerFn)
deriving DecidableEq, Repr

/-- What the process ultimately reports if it terminates: an `_exit`
status code, or death by an unhandled signal's default action. -/
inductive ProcExit where
  | code (c : Nat)
  | killed (sig : Nat)
deriving DecidableEq, Repr

/-- Observable output of the fault handler on stderr: a raw `write` of a
string literal, or the `backtrace_symbols_fd` dump of a list of frame
addresses (one line per address). -/
inductive OutEvent where
  | write (msg : String)
  | frames (addrs : List Nat)
deriving DecidableEq, Repr

/-- How a single run of `handle_segv` ends: it performs the (tail) call
`original_segv_handler(x)` — after which the C function returns normally
if and only if that call returns — or it calls `_exit(status)`. -/
inductive HandleResult where
  | delegated (f : HandlerFn) (x : Nat)
  | exited (status : Nat)
deriving DecidableEq, Repr

/-- The `static` locals of `handle_segv`: `static void *trace[TRACEBUFLEN]`
and `static int traces`.  They persist across invocations. -/
structure SegvStatics where
  trace : List Nat
  traces : Nat
deriving DecidableEq, Repr

/-- `backtrace(buf, buflen)`: stores the current call chain, truncated to
`buflen` entries, and returns the number stored.  The call chain is
modelled as the list of return addresses active at the fault. -/
def backtrace (stack : List Nat) (buflen : Nat) : List Nat :=
  stack.take buflen

/-- One invocation of `handle_segv` from `segvcatcher.c`, with the
current statics `st`, the value of `original_segv_handler` (`saved`),
the call stack at the fault, and the delivered signal number `x`.
Returns the updated statics, the stderr output in order, and how the
invocation ends.  The C branch is
`if (original_segv_handler != SIG_IGN && original_segv_handler != SIG_DFL)`,
i.e. delegate exactly on a non-sentinel pointer. -/
def handle_segv (st : SegvStatics) (saved : Disposition) (stack : List Nat)
    (x : Nat) : SegvStatics × List OutEvent × HandleResult :=
  let captured := backtrace stack TRACEBUFLEN
  let traces := captured.length
  let trace := captured ++ st.trace.drop traces
  let st1 : SegvStatics := ⟨trace, traces⟩
  let pre : List OutEvent :=
    [.write "SIGSEGV received. Backtrace:\n",
     .frames (trace.take traces),
     .write "End of backtrace. "]
  match saved with
  | .custom f =>
      (st1, pre ++ [.write "Calling original SIGSEGV handler.\n"],
       .delegated f x)
  | .ign =>
      (st1, pre ++ [.write "No other SIGSEGV handler available. Quitting.\n"],
       .exited ((1 <<< 7) ||| x))
  | .dfl =>
      (st1, pre ++ [.write "No other SIGSEGV handler available. Quitting.\n"],
       .exited ((1 <<< 7) ||| x))

/-- Behaviour assumed of a handler the library merely calls (a host
handler reached by delegation): `none` means the handler returns to its
caller, `some e` means it terminates the process. -/
def HostAct : Type := HandlerFn → Nat → Option ProcExit

/-- `handle_segv` (the C function, returning `void`) completes and
returns normally to the interrupted code exactly when it took the
delegation branch and the called original handler itself returned; the
`_exit` branch never returns. -/
def handleReturnsNormally (hostAct : HostAct) : HandleResult → Bool
  | .delegated f x => (hostAct f x).isNone
  | .exited _ => false

/-! ## The watchdog (`child`) -/

/-- One run of the watchdog, reconstructed from its observable actions:
the first clock reading (`start_time`), the requested sleep durations in
order, the final clock reading at loop exit, and the signals sent to the
parent after the loop. -/
structure ChildRun where
  start : Int
  sleeps : List Int
  exitTime : Int
  kills : List Nat
deriving DecidableEq, Repr

/-- The `do { t = time(NULL); zzz = start_time + DELAY - t;
if (zzz > 0) sleep(zzz); } while (t < start_time + DELAY);` loop.
Each iteration consumes one clock reading; the readings are arbitrary,
so a `sleep` cut short by a signal (little or no time advanced) is one
of the modelled behaviours.  Returns the accumulated sleep requests and
the final reading, or `none` when the supplied readings run out before
the loop exits. -/
def childLoop (start : Int) : List Int → List Int → Option (List Int × Int)
  | _, [] => none
  | sleeps, t :: rest =>
      let zzz := start + DELAY - t
      let sleeps1 := if 0 < zzz then sleeps ++ [zzz] else sleeps
      if t < start + DELAY then childLoop start sleeps1 rest
      else some (sleeps1, t)

/-- The `child` function: read `start_time`, run the re-sleep loop, then
`kill(getppid(), IPC_SIG)` once.  `clocks` supplies the successive
return values of `time(NULL)`. -/
def child : List Int → Option ChildRun
  | [] => none
  | start :: rest =>
      (childLoop start [] rest).map fun p => ⟨start, p.1, p.2, [IPC_SIG]⟩

/-! ## Process-level state machine -/

/-- The fields of `struct sigaction` this program uses: the handler (or
sentinel), the blocked-signal mask, and the two flags it ever sets. -/
structure Sigaction where
  sa_handler : Disposition
  sa_mask : List Nat
  sa_resethand : Bool
  sa_restart : Bool
deriving DecidableEq, Repr

/-- The per-process state the program touches: the dispositions of
`IPC_SIG` and `SIGSEGV`, the static `original_segv_handler`, the statics
of `handle_segv`, whether/how the process has terminated, and a ghost
counter of how many times `set_segv` has run (instrumentation only; no
source variable corresponds to it). -/
structure ProcState where
  ipcAct : Sigaction
  segvAct : Sigaction
  original_segv_handler : Disposition
  statics : SegvStatics
  exited : Option ProcExit
  handshakeRuns : Nat
deriving DecidableEq, Repr

/-- The body of `set_segv`: a single `sigaction(SIGSEGV, &new, &orig)`
read-and-replace with `new = {handle_segv, empty mask, flags 0}`,
followed by `original_segv_handler = orig.sa_handler` (only the handler
field of the old action is kept). -/
def set_segvStep (s : ProcState) : ProcState :=
  let orig := s.segvAct
  { s with
    segvAct := ⟨.custom .handle_segv, [], false, false⟩,
    original_segv_handler := orig.sa_handler,
    handshakeRuns := s.handshakeRuns + 1 }

/-- Events the process can experience after load: delivery of the
handshake signal, a memory fault (raising SIGSEGV with the given call
stack), or the host itself calling `sigaction(SIGSEGV, a, …)`. -/
inductive Ev where
  | deliverIPC
  | fault (stack : List Nat)
  | hostInstallSegv (a : Sigaction)
deriving DecidableEq, Repr

/-- Run `handle_segv` inside the process: update the statics, and either
`_exit`, or perform the delegation call — the delegate's behaviour is
given by `hostAct` (it returns, or terminates the process). -/
def runHandler (hostAct : HostAct) (s : ProcState) (stack : List Nat)
    (x : Nat) : ProcState × List OutEvent :=
  let r := handle_segv s.statics s.original_segv_handler stack x
  let s1 := { s with statics := r.1 }
  match r.2.2 with
  | .exited c => ({ s1 with exited := some (.code c) }, r.2.1)
  | .delegated f y =>
      match hostAct f y with
      | none => (s1, r.2.1)
      | some e => ({ s1 with exited := some e }, r.2.1)

/-- Deliver a signal whose installed action is `act`, on the process
`s`, where running the custom handler is `runF`.  POSIX semantics:
`SIG_DFL` performs the default action (for SIGSEGV and SIGSYS/SIGUNUSED:
terminate the process), `SIG_IGN` discards the signal, and a custom
handler runs — after the disposition is reset to default when the
action was installed with `SA_RESETHAND`. -/
def deliver (sig : Nat) (getAct : ProcState → Sigaction)
    (setAct : ProcState → Sigaction → ProcState)
    (runF : ProcState → HandlerFn → ProcState × List OutEvent)
    (s : ProcState) : ProcState × List OutEvent :=
  match (getAct s).sa_handler with
  | .dfl => ({ s with exited := some (.killed sig) }, [])
  | .ign => (s, [])
  | .custom f =>
      let s1 :=
        if (getAct s).sa_resethand then
          setAct s { getAct s with sa_handler := .dfl, sa_resethand := false }
        else s
      runF s1 f

/-- One event step of the process.  A terminated process ignores all
events.  A host handler reached directly (installed on the signal) has
the same abstract behaviour `hostAct` as a delegated one. -/
def step (hostAct : HostAct) (s : ProcState) : Ev → ProcState × List OutEvent
  | .hostInstallSegv a =>
      if s.exited.isSome then (s, []) else ({ s with segvAct := a }, [])
  | .deliverIPC =>
      if s.exited.isSome then (s, []) else
      deliver IPC_SIG (fun s => s.ipcAct)
        (fun s a => { s with ipcAct := a })
        (fun s1 f =>
          match f with
          | .set_segv => (set_segvStep s1, [])
          | .handle_segv => runHandler hostAct s1 [] IPC_SIG
          | .host t =>
              match hostAct (.host t) IPC_SIG with
              | none => (s1, [])
              | some e => ({ s1 with exited := some e }, [])) s
  | .fault stack =>
      if s.exited.isSome then (s, []) else
      deliver SIGSEGV (fun s => s.segvAct)
        (fun s a => { s with segvAct := a })
        (fun s1 f =>
          match f with
          | .set_segv => (set_segvStep s1, [])
          | .handle_segv => runHandler hostAct s1 stack SIGSEGV
          | .host t =>
              match hostAct (.host t) SIGSEGV with
              | none => (s1, [])
              | some e => ({ s1 with exited := some e }, [])) s

/-- Run a sequence of events, collecting the stderr output in order. -/
def run (hostAct : HostAct) (s : ProcState) :
    List Ev → ProcState × List OutEvent
  | [] => (s, [])
  | e :: rest =>
      let r1 := step hostAct s e
      let r2 := run hostAct r1.1 rest
      (r2.1, r1.2 ++ r2.2)

/-- The constructor `setup`: in the parent it installs `set_segv` on
`IPC_SIG` with an empty mask and `SA_RESTART | SA_RESETHAND` —
unconditionally, since `if(!fork())` only selects the child branch.
`forkOk` is whether `fork` succeeded; the second component is the list
of handshake deliveries the spawned watchdog will eventually perform
(none when the fork failed, since no watchdog process exists). -/
def setup (forkOk : Bool) (s : ProcState) : ProcState × List Ev :=
  ({ s with ipcAct := ⟨.custom .set_segv, [], true, true⟩ },
   if forkOk then [.deliverIPC] else [])

/-- The delegation calls a `HandleResult` stands for: `delegated f x` is
exactly one call of `f` with argument `x`; the `_exit` branch performs
none. -/
def delegationsOf : HandleResult → List (HandlerFn × Nat)
  | .delegated f x => [(f, x)]
  | .exited _ => []

/-- The stderr block `handle_segv` emits on the delegation branch for a
fault with call chain `stack`: notice, up to `TRACEBUFLEN` frames,
closing notice, delegation notice. -/
def traceBlock (stack : List Nat) : List OutEvent :=
  [.write "SIGSEGV received. Backtrace:\n",
   .frames (stack.take TRACEBUFLEN),
   .write "End of backtrace. ",
   .write "Calling original SIGSEGV handler.\n"]

/-- No event in the trace is the host installing the library's internal
handshake handler `set_segv` as its SIGSEGV disposition (the host cannot
name the library's `static` functions). -/
def NoSetSegvInstall (evs : List Ev) : Prop :=
  ∀ a, Ev.hostInstallSegv a ∈ evs → a.sa_handler ≠ .custom .set_segv

/-- No event in the trace installs either of the library's internal
functions as the SIGSEGV disposition. -/
def NoLibInstall (evs : List Ev) : Prop :=
  ∀ a, Ev.hostInstallSegv a ∈ evs →
    a.sa_handler ≠ .custom .set_segv ∧ a.sa_handler ≠ .custom .handle_segv

/-- Invariant behind the one-shot handshake: the ghost counter is at
most one, an armed handshake disposition still carries `SA_RESETHAND`
and has not fired yet, and the SIGSEGV disposition is never the
`set_segv` function. -/
def HsInv (s : ProcState) : Prop :=
  s.handshakeRuns ≤ 1 ∧
  (s.ipcAct.sa_handler = .custom .set_segv →
    s.ipcAct.sa_resethand = true ∧ s.handshakeRuns = 0) ∧
  s.segvAct.sa_handler ≠ .custom .set_segv

/-! ### Concrete sample data (used by witnesses and counterexamples) -/

/-- A host whose handlers always return to their caller. -/
def hostRet : HostAct := fun _ _ => none

/-- The statics at load: a zero-initialised 64-entry buffer. -/
def initBuf : SegvStatics := ⟨List.replicate TRACEBUFLEN 0, 0⟩

/-- A freshly started host process with default dispositions. -/
def hostState : ProcState :=
  ⟨⟨.dfl, [], false, false⟩, ⟨.dfl, [], false, false⟩, .dfl, initBuf, none, 0⟩

/-- A sample host SIGSEGV action (custom handler, as in the test
program `testsegvcatcher.c`). -/
def hostSegvAct : Sigaction := ⟨.custom (.host 5), [], false, false⟩

/-- The sample process after load and after the host installed its own
SIGSEGV handler, before the handshake. -/
def hostInstalled : ProcState :=
  (step hostRet (setup true hostState).1 (.hostInstallSegv hostSegvAct)).1

/-- The sample process right after the handshake delivery armed the
fault handler. -/
def armedState : ProcState :=
  (step hostRet hostInstalled .deliverIPC).1

/-! ## Helper lemmas -/

/-- The statics after any `handle_segv` invocation: the first
`min |stack| TRACEBUFLEN` buffer slots are overwritten with the captured
frames, the rest keep their old contents, and `traces` is the captured
count — independently of the saved disposition. -/
theorem handle_segv_statics (st : SegvStatics) (saved : Disposition)
    (stack : List Nat) (x : Nat) :
    (handle_segv st saved stack x).1 =
      ⟨stack.take TRACEBUFLEN ++ st.trace.drop (stack.take TRACEBUFLEN).length,
       (stack.take TRACEBUFLEN).length⟩ := by
  cases saved <;> rfl

/-- The frames event emitted by `handle_segv` shows exactly the captured
prefix of the fault's call chain, whatever the buffer held before. -/
theorem handle_segv_frames (st : SegvStatics) (saved : Disposition)
    (stack : List Nat) (x : Nat) :
    (handle_segv st saved stack x).2.1 =
      [.write "SIGSEGV received. Backtrace:\n",
       .frames (stack.take TRACEBUFLEN),
       .write "End of backtrace. "] ++
      (match saved with
       | .custom _ => [.write "Calling original SIGSEGV handler.\n"]
       | _ => [.write "No other SIGSEGV handler available. Quitting.\n"]) := by
  cases saved <;>
    simp [handle_segv, backtrace, List.take_left]

/-- On a non-sentinel saved handler, `handle_segv` emits the full
`traceBlock` and ends in the delegation call. -/
theorem handle_segv_custom (st : SegvStatics) (stack : List Nat) (x : Nat)
    (f : HandlerFn) :
    handle_segv st (.custom f) stack x =
      (⟨stack.take TRACEBUFLEN ++ st.trace.drop (stack.take TRACEBUFLEN).length,
        (stack.take TRACEBUFLEN).length⟩,
       traceBlock stack, .delegated f x) := by
  simp [handle_segv, backtrace, traceBlock, List.take_left]

/-- `runHandler` only touches the statics and the exit status: the
dispositions, the saved original handler and the ghost counter are
untouched (the fault handler reads, never writes, them). -/
theorem runHandler_fields (hostAct : HostAct) (s : ProcState)
    (stack : List Nat) (x : Nat) :
    (runHandler hostAct s stack x).1.ipcAct = s.ipcAct ∧
    (runHandler hostAct s stack x).1.segvAct = s.segvAct ∧
    (runHandler hostAct s stack x).1.original_segv_handler
      = s.original_segv_handler ∧
    (runHandler hostAct s stack x).1.handshakeRuns = s.handshakeRuns := by
  simp only [runHandler]
  split
  · simp
  · split <;> simp

/-- A terminated process ignores every event. -/
theorem step_exited (hostAct : HostAct) (s : ProcState) (e : Ev)
    (h : s.exited.isSome) : step hostAct s e = (s, []) := by
  cases e <;> simp [step, h]

/-- `original_segv_handler` and the ghost counter change only when
`set_segv` actually runs, i.e. when a signal is delivered on a
disposition that is the `set_segv` function. -/
theorem step_original_frozen (hostAct : HostAct) (s : ProcState) (e : Ev)
    (hipc : e = Ev.deliverIPC → s.ipcAct.sa_handler ≠ .custom .set_segv)
    (hseg : (∀ stack, e = Ev.fault stack →
      s.segvAct.sa_handler ≠ .custom .set_segv)) :
    (step hostAct s e).1.original_segv_handler = s.original_segv_handler ∧
    (step hostAct s e).1.handshakeRuns = s.handshakeRuns := by
  cases e with
  | hostInstallSegv a =>
      by_cases hex : s.exited.isSome <;> simp [step, hex]
  | deliverIPC =>
      by_cases hex : s.exited.isSome
      · simp [step, hex]
      · have hne := hipc rfl
        rcases hh : s.ipcAct.sa_handler with _ | _ | f
        · simp [step, hex, deliver, hh]
        · simp [step, hex, deliver, hh]
        · cases f with
          | set_segv => exact absurd hh hne
          | handle_segv =>
              have h1 := runHandler_fields hostAct
                (if s.ipcAct.sa_resethand then
                  { s with ipcAct :=
                    { s.ipcAct with sa_handler := .dfl, sa_resethand := false } }
                 else s) [] IPC_SIG
              by_cases hrh : s.ipcAct.sa_resethand <;>
                simp [step, hex, deliver, hh, hrh] <;>
                simp [hrh] at h1 <;>
                exact ⟨h1.2.2.1, h1.2.2.2⟩
          | host t =>
              by_cases hrh : s.ipcAct.sa_resethand <;>
                rcases hact : hostAct (.host t) IPC_SIG with _ | ex <;>
                simp [step, hex, deliver, hh, hrh, hact]
  | fault stack =>
      by_cases hex : s.exited.isSome
      · simp [step, hex]
      · have hne := hseg stack rfl
        rcases hh : s.segvAct.sa_handler with _ | _ | f
        · simp [step, hex, deliver, hh]
        · simp [step, hex, deliver, hh]
        · cases f with
          | set_segv => exact absurd hh hne
          | handle_segv =>
              have h1 := runHandler_fields hostAct
                (if s.segvAct.sa_resethand then
                  { s with segvAct :=
                    { s.segvAct with sa_handler := .dfl, sa_resethand := false } }
                 else s) stack SIGSEGV
              by_cases hrh : s.segvAct.sa_resethand <;>
                simp [step, hex, deliver, hh, hrh] <;>
                simp [hrh] at h1 <;>
                exact ⟨h1.2.2.1, h1.2.2.2⟩
          | host t =>
              by_cases hrh : s.segvAct.sa_resethand <;>
                rcases hact : hostAct (.host t) SIGSEGV with _ | ex <;>
                simp [step, hex, deliver, hh, hrh, hact]

/-- Only a delivery of the handshake signal can write the `IPC_SIG`
action (via the `SA_RESETHAND` reset): every other event leaves it
exactly as it is. -/
theorem step_ipcAct_of_ne (hostAct : HostAct) (s : ProcState) (e : Ev)
    (he : e ≠ Ev.deliverIPC) :
    (step hostAct s e).1.ipcAct = s.ipcAct := by
  cases e with
  | deliverIPC => exact absurd rfl he
  | hostInstallSegv a =>
      by_cases hex : s.exited.isSome <;> simp [step, hex]
  | fault stack =>
      by_cases hex : s.exited.isSome
      · simp [step, hex]
      · rcases hh : s.segvAct.sa_handler with _ | _ | f
        · simp [step, hex, deliver, hh]
        · simp [step, hex, deliver, hh]
        · cases f with
          | set_segv =>
              by_cases hrh : s.segvAct.sa_resethand <;>
                simp [step, hex, deliver, hh, hrh, set_segvStep]
          | handle_segv =>
              have h1 := runHandler_fields hostAct
                (if s.segvAct.sa_resethand then
                  { s with segvAct :=
                    { s.segvAct with sa_handler := .dfl, sa_resethand := false } }
                 else s) stack SIGSEGV
              by_cases hrh : s.segvAct.sa_resethand <;>
                simp [step, hex, deliver, hh, hrh] <;>
                simp [hrh] at h1 <;>
                exact h1.1
          | host t =>
              by_cases hrh : s.segvAct.sa_resethand <;>
                rcases hact : hostAct (.host t) SIGSEGV with _ | ex <;>
                simp [step, hex, deliver, hh, hrh, hact]

/-- No step ever makes the `IPC_SIG` disposition the `set_segv`
function: nothing in the program installs on `IPC_SIG` after load, and
the `SA_RESETHAND` reset writes the default disposition. -/
theorem step_ipc_ne (hostAct : HostAct) (s : ProcState) (e : Ev)
    (h : s.ipcAct.sa_handler ≠ .custom .set_segv) :
    (step hostAct s e).1.ipcAct.sa_handler ≠ .custom .set_segv := by
  cases e with
  | hostInstallSegv a =>
      by_cases hex : s.exited.isSome <;> simp [step, hex] <;> exact h
  | deliverIPC =>
      by_cases hex : s.exited.isSome
      · simp [step, hex]; exact h
      · rcases hh : s.ipcAct.sa_handler with _ | _ | f
        · simp [step, hex, deliver, hh]
        · simp [step, hex, deliver, hh]
        · cases f with
          | set_segv => exact absurd hh h
          | handle_segv =>
              have h1 := runHandler_fields hostAct
                (if s.ipcAct.sa_resethand then
                  { s with ipcAct :=
                    { s.ipcAct with sa_handler := .dfl, sa_resethand := false } }
                 else s) [] IPC_SIG
              by_cases hrh : s.ipcAct.sa_resethand <;>
                simp [step, hex, deliver, hh, hrh] <;>
                simp [hrh] at h1 <;>
                rw [h1.1] <;> simp [hh]
          | host t =>
              by_cases hrh : s.ipcAct.sa_resethand <;>
                rcases hact : hostAct (.host t) IPC_SIG with _ | ex <;>
                simp [step, hex, deliver, hh, hrh, hact]
  | fault stack =>
      have h1 := step_ipcAct_of_ne hostAct s (.fault stack) (by simp)
      rw [h1]; exact h

/-- If the host never installs `set_segv` on SIGSEGV, the SIGSEGV
disposition never becomes the `set_segv` function: the library itself
only ever installs `handle_segv` there, and resets write the default. -/
theorem step_segv_ne (hostAct : HostAct) (s : ProcState) (e : Ev)
    (h : s.segvAct.sa_handler ≠ .custom .set_segv)
    (he : ∀ a, e = Ev.hostInstallSegv a → a.sa_handler ≠ .custom .set_segv) :
    (step hostAct s e).1.segvAct.sa_handler ≠ .custom .set_segv := by
  cases e with
  | hostInstallSegv a =>
      by_cases hex : s.exited.isSome <;> simp [step, hex]
      · exact h
      · exact he a rfl
  | deliverIPC =>
      by_cases hex : s.exited.isSome
      · simp [step, hex]; exact h
      · rcases hh : s.ipcAct.sa_handler with _ | _ | f
        · simp [step, hex, deliver, hh]; exact h
        · simp [step, hex, deliver, hh]; exact h
        · cases f with
          | set_segv =>
              by_cases hrh : s.ipcAct.sa_resethand <;>
                simp [step, hex, deliver, hh, hrh, set_segvStep]
          | handle_segv =>
              have h1 := runHandler_fields hostAct
                (if s.ipcAct.sa_resethand then
                  { s with ipcAct :=
                    { s.ipcAct with sa_handler := .dfl, sa_resethand := false } }
                 else s) [] IPC_SIG
              by_cases hrh : s.ipcAct.sa_resethand <;>
                simp [step, hex, deliver, hh, hrh] <;>
                simp [hrh] at h1 <;>
                rw [h1.2.1] <;> exact h
          | host t =>
              by_cases hrh : s.ipcAct.sa_resethand <;>
                rcases hact : hostAct (.host t) IPC_SIG with _ | ex <;>
                simp [step, hex, deliver, hh, hrh, hact] <;> exact h
  | fault stack =>
      by_cases hex : s.exited.isSome
      · simp [step, hex]; exact h
      · rcases hh : s.segvAct.sa_handler with _ | _ | f
        · simp [step, hex, deliver, hh]
        · simp [step, hex, deliver, hh]
        · cases f with
          | set_segv => exact absurd hh h
          | handle_segv =>
              have h1 := runHandler_fields hostAct
                (if s.segvAct.sa_resethand then
                  { s with segvAct :=
                    { s.segvAct with sa_handler := .dfl, sa_resethand := false } }
                 else s) stack SIGSEGV
              by_cases hrh : s.segvAct.sa_resethand <;>
                simp [step, hex, deliver, hh, hrh] <;>
                simp [hrh] at h1 <;>
                rw [h1.2.1] <;> simp [hh] at h ⊢
          | host t =>
              by_cases hrh : s.segvAct.sa_resethand <;>
                rcases hact : hostAct (.host t) SIGSEGV with _ | ex <;>
                simp [step, hex, deliver, hh, hrh, hact]

/-- While no handshake delivery occurs and the host installs neither of
the library's functions, the SIGSEGV disposition never becomes
`handle_segv`: `set_segv` is the only code that arms it. -/
theorem step_segv_unarmed (hostAct : HostAct) (s : ProcState) (e : Ev)
    (h1 : s.segvAct.sa_handler ≠ .custom .set_segv)
    (h2 : s.segvAct.sa_handler ≠ .custom .handle_segv)
    (hipc : e ≠ Ev.deliverIPC)
    (he : ∀ a, e = Ev.hostInstallSegv a →
      a.sa_handler ≠ .custom .set_segv ∧ a.sa_handler ≠ .custom .handle_segv) :
    (step hostAct s e).1.segvAct.sa_handler ≠ .custom .set_segv ∧
    (step hostAct s e).1.segvAct.sa_handler ≠ .custom .handle_segv := by
  cases e with
  | deliverIPC => exact absurd rfl hipc
  | hostInstallSegv a =>
      by_cases hex : s.exited.isSome <;> simp [step, hex]
      · exact ⟨h1, h2⟩
      · exact he a rfl
  | fault stack =>
      by_cases hex : s.exited.isSome
      · simp [step, hex]; exact ⟨h1, h2⟩
      · rcases hh : s.segvAct.sa_handler with _ | _ | f
        · simp [step, hex, deliver, hh]
        · simp [step, hex, deliver, hh]
        · cases f with
          | set_segv => exact absurd hh h1
          | handle_segv => exact absurd hh h2
          | host t =>
              by_cases hrh : s.segvAct.sa_resethand <;>
                rcases hact : hostAct (.host t) SIGSEGV with _ | ex <;>
                simp [step, hex, deliver, hh, hrh, hact]

/-- Delivering the handshake signal to a live process whose `IPC_SIG`
action is the armed `set_segv` with `SA_RESETHAND` first resets the
disposition to default, then runs `set_segv`; nothing is printed. -/
theorem step_handshake (hostAct : HostAct) (s : ProcState)
    (hh : s.ipcAct.sa_handler = .custom .set_segv)
    (hrh : s.ipcAct.sa_resethand = true)
    (hex : s.exited = none) :
    (step hostAct s .deliverIPC).1 =
      set_segvStep
        { s with ipcAct :=
          { s.ipcAct with sa_handler := .dfl, sa_resethand := false } } ∧
    (step hostAct s .deliverIPC).2 = [] := by
  simp [step, deliver, hh, hrh, hex]

/-- Unfolding of `run` on a cons cell. -/
theorem run_cons (hostAct : HostAct) (s : ProcState) (e : Ev)
    (rest : List Ev) :
    run hostAct s (e :: rest) =
      ((run hostAct (step hostAct s e).1 rest).1,
       (step hostAct s e).2 ++ (run hostAct (step hostAct s e).1 rest).2) :=
  rfl

/-- One step preserves the handshake invariant, provided the host does
not install `set_segv` itself. -/
theorem step_HsInv (hostAct : HostAct) (s : ProcState) (e : Ev)
    (h : HsInv s)
    (he : ∀ a, e = Ev.hostInstallSegv a → a.sa_handler ≠ .custom .set_segv) :
    HsInv (step hostAct s e).1 := by
  obtain ⟨hle, harm, hseg⟩ := h
  cases e with
  | hostInstallSegv a =>
      have h1 := step_original_frozen hostAct s (.hostInstallSegv a)
        (by simp) (by simp)
      have h2 := step_ipcAct_of_ne hostAct s (.hostInstallSegv a) (by simp)
      have h3 := step_segv_ne hostAct s (.hostInstallSegv a) hseg he
      refine ⟨by rw [h1.2]; exact hle, fun hc => ?_, h3⟩
      rw [h2] at hc
      rw [h2, h1.2]
      exact harm hc
  | fault stack =>
      have h1 := step_original_frozen hostAct s (.fault stack)
        (by simp) (fun st hc => hseg)
      have h2 := step_ipcAct_of_ne hostAct s (.fault stack) (by simp)
      have h3 := step_segv_ne hostAct s (.fault stack) hseg he
      refine ⟨by rw [h1.2]; exact hle, fun hc => ?_, h3⟩
      rw [h2] at hc
      rw [h2, h1.2]
      exact harm hc
  | deliverIPC =>
      by_cases hh : s.ipcAct.sa_handler = .custom .set_segv
      · obtain ⟨hrh, h0⟩ := harm hh
        cases hex : s.exited with
        | some ex =>
            have hst := step_exited hostAct s .deliverIPC (by simp [hex])
            rw [hst]
            exact ⟨hle, harm, hseg⟩
        | none =>
            have hc := step_handshake hostAct s hh hrh hex
            rw [hc.1]
            refine ⟨by simp [set_segvStep, h0], by simp [set_segvStep], ?_⟩
            simp [set_segvStep]
      · have h1 := step_original_frozen hostAct s .deliverIPC
          (fun _ => hh) (by simp)
        have h2 := step_ipc_ne hostAct s .deliverIPC hh
        have h3 := step_segv_ne hostAct s .deliverIPC hseg he
        exact ⟨by rw [h1.2]; exact hle, fun hc => absurd hc h2, h3⟩

/-- The handshake invariant holds along any run, provided the host never
installs `set_segv`. -/
theorem run_HsInv (hostAct : HostAct) (s : ProcState) (evs : List Ev)
    (h : HsInv s) (hevs : NoSetSegvInstall evs) :
    HsInv (run hostAct s evs).1 := by
  induction evs generalizing s with
  | nil => exact h
  | cons e rest ih =>
      rw [run_cons]
      exact ih (step hostAct s e).1
        (step_HsInv hostAct s e h
          (fun a ha => hevs a (by rw [← ha]; exact List.mem_cons_self e rest)))
        (fun a ha => hevs a (List.mem_cons_of_mem e ha))

/-- Once the handshake disposition is no longer `set_segv` (and the host
never installs it), `original_segv_handler` and the ghost counter are
frozen along any run, and neither disposition ever becomes `set_segv`
again. -/
theorem run_frozen (hostAct : HostAct) (s : ProcState) (evs : List Ev)
    (hseg : s.segvAct.sa_handler ≠ .custom .set_segv)
    (hipc : s.ipcAct.sa_handler ≠ .custom .set_segv)
    (hevs : NoSetSegvInstall evs) :
    (run hostAct s evs).1.original_segv_handler = s.original_segv_handler ∧
    (run hostAct s evs).1.handshakeRuns = s.handshakeRuns ∧
    (run hostAct s evs).1.segvAct.sa_handler ≠ .custom .set_segv ∧
    (run hostAct s evs).1.ipcAct.sa_handler ≠ .custom .set_segv := by
  induction evs generalizing s with
  | nil => exact ⟨rfl, rfl, hseg, hipc⟩
  | cons e rest ih =>
      have h1 := step_original_frozen hostAct s e (fun _ => hipc)
        (fun st _ => hseg)
      have h2 := step_ipc_ne hostAct s e hipc
      have h3 := step_segv_ne hostAct s e hseg
        (fun a ha => hevs a (by rw [← ha]; exact List.mem_cons_self e rest))
      have hrest := ih (step hostAct s e).1 h3 h2
        (fun a ha => hevs a (List.mem_cons_of_mem e ha))
      rw [run_cons]
      exact ⟨by rw [hrest.1, h1.1], by rw [hrest.2.1, h1.2],
        hrest.2.2.1, hrest.2.2.2⟩

/-- Before any handshake delivery (and with no `set_segv` install), a
run leaves the `IPC_SIG` action, the saved handler and the ghost counter
untouched, and the SIGSEGV disposition stays clear of `set_segv`. -/
theorem run_phase1 (hostAct : HostAct) (s : ProcState) (evs : List Ev)
    (hseg : s.segvAct.sa_handler ≠ .custom .set_segv)
    (hno : Ev.deliverIPC ∉ evs)
    (hevs : NoSetSegvInstall evs) :
    (run hostAct s evs).1.ipcAct = s.ipcAct ∧
    (run hostAct s evs).1.original_segv_handler = s.original_segv_handler ∧
    (run hostAct s evs).1.handshakeRuns = s.handshakeRuns ∧
    (run hostAct s evs).1.segvAct.sa_handler ≠ .custom .set_segv := by
  induction evs generalizing s with
  | nil => exact ⟨rfl, rfl, rfl, hseg⟩
  | cons e rest ih =>
      have hne : e ≠ Ev.deliverIPC := by
        intro hc
        exact hno (by rw [← hc]; exact List.mem_cons_self e rest)
      have h1 := step_original_frozen hostAct s e
        (fun hc => absurd hc hne) (fun st _ => hseg)
      have h2 := step_ipcAct_of_ne hostAct s e hne
      have h3 := step_segv_ne hostAct s e hseg
        (fun a ha => hevs a (by rw [← ha]; exact List.mem_cons_self e rest))
      have hrest := ih (step hostAct s e).1 h3
        (fun hc => hno (List.mem_cons_of_mem e hc))
        (fun a ha => hevs a (List.mem_cons_of_mem e ha))
      rw [run_cons]
      exact ⟨by rw [hrest.1, h2], by rw [hrest.2.1, h1.1],
        by rw [hrest.2.2.1, h1.2], hrest.2.2.2⟩

/-- With the fork failed (so no handshake delivery ever occurs) and the
host never installing the library's functions, `set_segv` never runs
and the fault handler is never armed. -/
theorem run_unarmed (hostAct : HostAct) (s : ProcState) (evs : List Ev)
    (h1 : s.segvAct.sa_handler ≠ .custom .set_segv)
    (h2 : s.segvAct.sa_handler ≠ .custom .handle_segv)
    (hno : Ev.deliverIPC ∉ evs)
    (hevs : NoLibInstall evs) :
    (run hostAct s evs).1.handshakeRuns = s.handshakeRuns ∧
    (run hostAct s evs).1.segvAct.sa_handler ≠ .custom .set_segv ∧
    (run hostAct s evs).1.segvAct.sa_handler ≠ .custom .handle_segv := by
  induction evs generalizing s with
  | nil => exact ⟨rfl, h1, h2⟩
  | cons e rest ih =>
      have hne : e ≠ Ev.deliverIPC := by
        intro hc
        exact hno (by rw [← hc]; exact List.mem_cons_self e rest)
      have hfr := step_original_frozen hostAct s e
        (fun hc => absurd hc hne) (fun st _ => h1)
      have hun := step_segv_unarmed hostAct s e h1 h2 hne
        (fun a ha => hevs a (by rw [← ha]; exact List.mem_cons_self e rest))
      have hrest := ih (step hostAct s e).1 hun.1 hun.2
        (fun hc => hno (List.mem_cons_of_mem e hc))
        (fun a ha => hevs a (List.mem_cons_of_mem e ha))
      rw [run_cons]
      exact ⟨by rw [hrest.1, hfr.2], hrest.2.1, hrest.2.2⟩

/-- If the watchdog loop exits, the last clock reading has reached the
deadline `start + DELAY`. -/
theorem childLoop_exit (start : Int) (sleeps rest : List Int)
    (p : List Int × Int) (h : childLoop start sleeps rest = some p) :
    start + DELAY ≤ p.2 := by
  induction rest generalizing sleeps with
  | nil => simp [childLoop] at h
  | cons t ts ih =>
      simp only [childLoop] at h
      by_cases hlt : t < start + DELAY
      · rw [if_pos hlt] at h
        exact ih _ h
      · rw [if_neg hlt] at h
        obtain rfl := Option.some.inj h
        omega

/-- Delivering a fault to a live process whose SIGSEGV action is the
armed `handle_segv` (flags 0, as `set_segv` installs it) with a
non-sentinel saved handler that returns: the statics are updated, the
full `traceBlock` is printed, and the process keeps running with
dispositions and saved handler untouched. -/
theorem step_fault_armed (hostAct : HostAct) (s : ProcState)
    (stack : List Nat) (f : HandlerFn)
    (hseg : s.segvAct = ⟨.custom .handle_segv, [], false, false⟩)
    (hsav : s.original_segv_handler = .custom f)
    (hret : hostAct f SIGSEGV = none)
    (halive : s.exited = none) :
    step hostAct s (.fault stack) =
      ({ s with statics := (handle_segv s.statics (.custom f) stack SIGSEGV).1 },
       traceBlock stack) := by
  simp [step, halive, deliver, hseg, runHandler, hsav, handle_segv_custom, hret]

/-- A run consisting only of faults, from an armed state whose saved
original handler is a custom handler that returns: every fault
independently prints its own full backtrace block, and the armed state
survives unchanged. -/
theorem run_faults (hostAct : HostAct) (f : HandlerFn)
    (stks : List (List Nat)) (s : ProcState)
    (hseg : s.segvAct = ⟨.custom .handle_segv, [], false, false⟩)
    (hsav : s.original_segv_handler = .custom f)
    (hret : hostAct f SIGSEGV = none)
    (halive : s.exited = none) :
    (run hostAct s (stks.map Ev.fault)).2 = (stks.map traceBlock).flatten ∧
    (run hostAct s (stks.map Ev.fault)).1.segvAct = s.segvAct ∧
    (run hostAct s (stks.map Ev.fault)).1.original_segv_handler
      = s.original_segv_handler ∧
    (run hostAct s (stks.map Ev.fault)).1.exited = none := by
  induction stks generalizing s hseg hsav halive with
  | nil => exact ⟨rfl, rfl, rfl, halive⟩
  | cons stk rest ih =>
      have hstep := step_fault_armed hostAct s stk f hseg hsav hret halive
      have ihr := ih
        { s with statics := (handle_segv s.statics (.custom f) stk SIGSEGV).1 }
        hseg hsav halive
      rw [List.map_cons, run_cons, hstep]
      refine ⟨?_, ihr.2.1, ihr.2.2.1, ihr.2.2.2⟩
      dsimp only
      rw [List.map_cons, List.flatten_cons, ihr.1]

/-! ## The claims -/

/-- C1: on every invocation of the fault handler, if the saved original
handler is neither the ignore nor the default sentinel it is invoked
exactly once with the signal number passed through unchanged; otherwise
the invocation ends in `_exit` with no delegation; and the three
dispositions are exhaustive. -/
theorem claim1_handler_dispatch (st : SegvStatics) (stack : List Nat)
    (x : Nat) :
    (∀ f, (handle_segv st (.custom f) stack x).2.2 = .delegated f x ∧
      delegationsOf (handle_segv st (.custom f) stack x).2.2 = [(f, x)]) ∧
    ((handle_segv st .ign stack x).2.2 = .exited ((1 <<< 7) ||| x) ∧
      delegationsOf (handle_segv st .ign stack x).2.2 = []) ∧
    ((handle_segv st .dfl stack x).2.2 = .exited ((1 <<< 7) ||| x) ∧
      delegationsOf (handle_segv st .dfl stack x).2.2 = []) ∧
    (∀ d : Disposition, d = .dfl ∨ d = .ign ∨ ∃ f, d = .custom f) := by
  refine ⟨fun f => ⟨rfl, rfl⟩, ⟨rfl, rfl⟩, ⟨rfl, rfl⟩, fun d => ?_⟩
  cases d with
  | dfl => exact .inl rfl
  | ign => exact .inr (.inl rfl)
  | custom f => exact .inr (.inr ⟨f, rfl⟩)

/-- C2 counterexample: with a custom saved handler that itself returns,
`handle_segv` completes and returns normally to the interrupted code
(the process is still alive after the fault), so an execution path on
which the fault handler returns does exist. -/
theorem claim2_counterexample :
    handleReturnsNormally hostRet
      (handle_segv initBuf (.custom (.host 0)) [1, 2, 3] SIGSEGV).2.2
      = true ∧
    (step hostRet armedState (.fault [1, 2, 3])).1.exited = none := by
  exact ⟨rfl, rfl⟩

/-- C2 amended: every invocation of the fault handler either performs
the delegation call to the saved original handler or terminates the
process via `_exit`; it completes and returns normally only when it
delegated and the delegate itself returned — never without delegating. -/
theorem claim2_no_silent_return (hostAct : HostAct) (st : SegvStatics)
    (saved : Disposition) (stack : List Nat) (x : Nat) :
    ((∃ f, saved = .custom f ∧
        (handle_segv st saved stack x).2.2 = .delegated f x) ∨
      (handle_segv st saved stack x).2.2 = .exited ((1 <<< 7) ||| x)) ∧
    (handleReturnsNormally hostAct (handle_segv st saved stack x).2.2
        = true →
      ∃ f, saved = .custom f ∧ hostAct f x = none) := by
  cases saved with
  | dfl =>
      exact ⟨.inr rfl, by simp [handle_segv, handleReturnsNormally]⟩
  | ign =>
      exact ⟨.inr rfl, by simp [handle_segv, handleReturnsNormally]⟩
  | custom f =>
      refine ⟨.inl ⟨f, rfl, rfl⟩, fun h => ⟨f, rfl, ?_⟩⟩
      simpa [handle_segv, handleReturnsNormally,
        Option.isNone_iff_eq_none] using h

/-- C2 amended, witness at a concrete input. -/
theorem claim2_no_silent_return_witness :
    ((∃ f, (Disposition.custom (.host 0)) = Disposition.custom f ∧
        (handle_segv initBuf (.custom (.host 0)) [1, 2] SIGSEGV).2.2
          = .delegated f SIGSEGV) ∨
      (handle_segv initBuf (.custom (.host 0)) [1, 2] SIGSEGV).2.2
        = .exited ((1 <<< 7) ||| SIGSEGV)) ∧
    (handleReturnsNormally hostRet
        (handle_segv initBuf (.custom (.host 0)) [1, 2] SIGSEGV).2.2
        = true →
      ∃ f, (Disposition.custom (.host 0)) = Disposition.custom f ∧
        hostRet f SIGSEGV = none) :=
  claim2_no_silent_return hostRet initBuf (.custom (.host 0)) [1, 2] SIGSEGV

/-- C3: when no usable original handler exists the process exits with
status `(1 <<< 7) ||| x`, which equals `128 + x` for every signal
number below 128 (139 for SIGSEGV). -/
theorem claim3_exit_status (st : SegvStatics) (stack : List Nat) (x : Nat)
    (hx : x < 128) :
    (handle_segv st .dfl stack x).2.2 = .exited (128 + x) ∧
    (handle_segv st .ign stack x).2.2 = .exited (128 + x) ∧
    (1 <<< 7) ||| x = 128 + x := by
  have hall : ∀ y, y < 128 → 128 ||| y = 128 + y := by decide
  have h7 : (1 : Nat) <<< 7 = 128 := by decide
  have h : (1 <<< 7) ||| x = 128 + x := by rw [h7]; exact hall x hx
  exact ⟨by simp [handle_segv, hall x hx], by simp [handle_segv, hall x hx], h⟩

/-- C3 witness: at the concrete fault signal 11 the exit status is 139. -/
theorem claim3_exit_status_witness :
    (handle_segv initBuf .dfl [1] 11).2.2 = .exited 139 ∧
    (1 <<< 7) ||| 11 = 128 + 11 :=
  ⟨(claim3_exit_status initBuf [1] 11 (by decide)).1,
   (claim3_exit_status initBuf [1] 11 (by decide)).2.2⟩

/-- C4: however the clock readings run (so however often a sleep is cut
short), if the watchdog loop exits it does so only with the current
time at or past `start + DELAY`, and the handshake signal is then sent
exactly once. -/
theorem claim4_watchdog (clocks : List Int) (r : ChildRun)
    (h : child clocks = some r) :
    r.start + DELAY ≤ r.exitTime ∧ r.kills = [IPC_SIG] := by
  cases clocks with
  | nil => simp [child] at h
  | cons start rest =>
      simp only [child, Option.map_eq_some'] at h
      obtain ⟨p, hp, hr⟩ := h
      have := childLoop_exit start [] rest p hp
      rw [← hr]
      exact ⟨this, rfl⟩

/-- C4 witness: a run with two shortened sleeps still signals only at
time 104 ≥ 100 + 3. -/
theorem claim4_watchdog_witness :
    (100 : Int) + DELAY ≤ (104 : Int) ∧ ([31] : List Nat) = [IPC_SIG] :=
  claim4_watchdog [100, 100, 101, 104] ⟨100, [3, 2], 104, [31]⟩ (by decide)

/-- C5 counterexample: a second delivery of the handshake signal does
have an additional effect on the process — its disposition has been
reset to default, and the default action of the (SIGSYS) handshake
signal terminates the process. -/
theorem claim5_counterexample :
    (step hostRet armedState .deliverIPC).1 ≠ armedState ∧
    (step hostRet armedState .deliverIPC).1.exited
      = some (.killed IPC_SIG) := by
  exact ⟨by decide, rfl⟩

/-- C5 amended: the handshake handler runs at most once per process
lifetime — its installation auto-resets the handshake disposition to
default on first delivery, so a second delivery does not run `set_segv`
again and leaves the interception state untouched; but instead of
having no effect, the second delivery undergoes the handshake signal's
default action and terminates the process. -/
theorem claim5_handshake_once (hostAct : HostAct) (s0 : ProcState)
    (fk : Bool) (evs : List Ev)
    (h0 : s0.handshakeRuns = 0)
    (hseg : s0.segvAct.sa_handler ≠ .custom .set_segv)
    (hexit : s0.exited = none)
    (hinst : NoSetSegvInstall evs) :
    (run hostAct (setup fk s0).1 evs).1.handshakeRuns ≤ 1 ∧
    (step hostAct (setup fk s0).1 .deliverIPC).1.ipcAct.sa_handler
      = .dfl ∧
    (step hostAct (setup fk s0).1 .deliverIPC).1.handshakeRuns = 1 ∧
    (step hostAct (step hostAct (setup fk s0).1 .deliverIPC).1
        .deliverIPC).1
      = { (step hostAct (setup fk s0).1 .deliverIPC).1 with
          exited := some (.killed IPC_SIG) } := by
  have hhs := step_handshake hostAct (setup fk s0).1 rfl rfl
    (show s0.exited = none from hexit)
  refine ⟨?_, ?_, ?_, ?_⟩
  · refine (run_HsInv hostAct (setup fk s0).1 evs ⟨?_, ?_, ?_⟩ hinst).1
    · show s0.handshakeRuns ≤ 1
      omega
    · exact fun _ => ⟨rfl, h0⟩
    · exact hseg
  · rw [hhs.1]; rfl
  · rw [hhs.1]
    show s0.handshakeRuns + 1 = 1
    omega
  · rw [hhs.1]
    simp [step, deliver, set_segvStep, setup, hexit]

/-- C5 amended, witness at a concrete process and trace. -/
theorem claim5_handshake_once_witness :
    (run hostRet (setup true hostState).1
        [.hostInstallSegv hostSegvAct]).1.handshakeRuns ≤ 1 ∧
    (step hostRet (setup true hostState).1 .deliverIPC).1.ipcAct.sa_handler
      = .dfl ∧
    (step hostRet (setup true hostState).1 .deliverIPC).1.handshakeRuns
      = 1 ∧
    (step hostRet (step hostRet (setup true hostState).1 .deliverIPC).1
        .deliverIPC).1
      = { (step hostRet (setup true hostState).1 .deliverIPC).1 with
          exited := some (.killed IPC_SIG) } :=
  claim5_handshake_once hostRet hostState true [.hostInstallSegv hostSegvAct]
    rfl (by decide) rfl
    (by
      intro a ha
      simp only [List.mem_singleton, Ev.hostInstallSegv.injEq] at ha
      subst ha
      decide)

/-- C6: the saved original handler is written exactly once, by the
handshake handler, which captures in one read-and-replace operation the
SIGSEGV disposition active at handshake time; every later event leaves
it unchanged (the fault handler only reads it), so at every later fault
it still equals the host's SIGSEGV disposition at handshake time. -/
theorem claim6_saved_written_once (hostAct : HostAct) (s0 : ProcState)
    (fk : Bool) (evs1 evs2 : List Ev)
    (h0 : s0.handshakeRuns = 0)
    (hseg : s0.segvAct.sa_handler ≠ .custom .set_segv)
    (hno1 : Ev.deliverIPC ∉ evs1)
    (hi1 : NoSetSegvInstall evs1)
    (hi2 : NoSetSegvInstall evs2)
    (halive : (run hostAct (setup fk s0).1 evs1).1.exited = none) :
    (run hostAct (setup fk s0).1 evs1).1.handshakeRuns = 0 ∧
    ((step hostAct (run hostAct (setup fk s0).1 evs1).1
      .deliverIPC).1).original_segv_handler
      = ((run hostAct (setup fk s0).1 evs1).1).segvAct.sa_handler ∧
    ((step hostAct (run hostAct (setup fk s0).1 evs1).1
      .deliverIPC).1).segvAct.sa_handler = .custom .handle_segv ∧
    ((step hostAct (run hostAct (setup fk s0).1 evs1).1
      .deliverIPC).1).handshakeRuns = 1 ∧
    ((run hostAct
      (step hostAct (run hostAct (setup fk s0).1 evs1).1 .deliverIPC).1
      evs2).1).original_segv_handler
      = ((step hostAct (run hostAct (setup fk s0).1 evs1).1
          .deliverIPC).1).original_segv_handler ∧
    ((run hostAct
      (step hostAct (run hostAct (setup fk s0).1 evs1).1 .deliverIPC).1
      evs2).1).handshakeRuns = 1 := by
  have hp1 := run_phase1 hostAct (setup fk s0).1 evs1
    (show s0.segvAct.sa_handler ≠ _ from hseg) hno1 hi1
  have hrun0 : (run hostAct (setup fk s0).1 evs1).1.handshakeRuns = 0 := by
    rw [hp1.2.2.1]; exact h0
  have hip : (run hostAct (setup fk s0).1 evs1).1.ipcAct
      = ⟨.custom .set_segv, [], true, true⟩ := by
    rw [hp1.1]; rfl
  have hhs := step_handshake hostAct (run hostAct (setup fk s0).1 evs1).1
    (by rw [hip]) (by rw [hip]) halive
  have hs2seg : ((step hostAct (run hostAct (setup fk s0).1 evs1).1
      .deliverIPC).1).segvAct.sa_handler = .custom .handle_segv := by
    rw [hhs.1]; rfl
  have hs2runs : ((step hostAct (run hostAct (setup fk s0).1 evs1).1
      .deliverIPC).1).handshakeRuns = 1 := by
    rw [hhs.1]
    show (run hostAct (setup fk s0).1 evs1).1.handshakeRuns + 1 = 1
    omega
  have hs2ipc : ((step hostAct (run hostAct (setup fk s0).1 evs1).1
      .deliverIPC).1).ipcAct.sa_handler = .dfl := by
    rw [hhs.1]; rfl
  have hfr := run_frozen hostAct
    (step hostAct (run hostAct (setup fk s0).1 evs1).1 .deliverIPC).1 evs2
    (by rw [hs2seg]; exact fun hc => nomatch hc)
    (by rw [hs2ipc]; exact fun hc => nomatch hc) hi2
  refine ⟨hrun0, ?_, hs2seg, hs2runs, hfr.1, by rw [hfr.2.1, hs2runs]⟩
  rw [hhs.1]
  rfl

/-- C6 witness: a concrete trace — the host installs its handler before
the handshake, the handshake captures it, and a later fault leaves it
unchanged. -/
theorem claim6_saved_written_once_witness :
    (run hostRet (setup true hostState).1
        [.hostInstallSegv hostSegvAct]).1.handshakeRuns = 0 ∧
    ((step hostRet
      (run hostRet (setup true hostState).1
        [.hostInstallSegv hostSegvAct]).1
      .deliverIPC).1).original_segv_handler
      = ((run hostRet (setup true hostState).1
          [.hostInstallSegv hostSegvAct]).1).segvAct.sa_handler ∧
    ((step hostRet
      (run hostRet (setup true hostState).1
        [.hostInstallSegv hostSegvAct]).1
      .deliverIPC).1).segvAct.sa_handler = .custom .handle_segv ∧
    ((step hostRet
      (run hostRet (setup true hostState).1
        [.hostInstallSegv hostSegvAct]).1
      .deliverIPC).1).handshakeRuns = 1 ∧
    ((run hostRet
      (step hostRet
        (run hostRet (setup true hostState).1
          [.hostInstallSegv hostSegvAct]).1
        .deliverIPC).1
      [.fault [7, 8]]).1).original_segv_handler
      = ((step hostRet
          (run hostRet (setup true hostState).1
            [.hostInstallSegv hostSegvAct]).1
          .deliverIPC).1).original_segv_handler ∧
    ((run hostRet
      (step hostRet
        (run hostRet (setup true hostState).1
          [.hostInstallSegv hostSegvAct]).1
        .deliverIPC).1
      [.fault [7, 8]]).1).handshakeRuns = 1 :=
  claim6_saved_written_once hostRet hostState true
    [.hostInstallSegv hostSegvAct] [.fault [7, 8]]
    rfl (by decide) (by decide)
    (by
      intro a ha
      simp only [List.mem_singleton, Ev.hostInstallSegv.injEq] at ha
      subst ha
      decide)
    (by intro a ha; simp at ha)
    (by decide)


/-- C7: on every invocation of the fault handler, at most `TRACEBUFLEN`
(64) frames are captured into the backtrace buffer, the buffer's size
never changes (no overrun), what is captured and what is emitted is the
truncated prefix of the fault's call chain, and every emitted frame list
has at most 64 entries. -/
theorem claim7_backtrace_bounded (st : SegvStatics) (saved : Disposition)
    (stack : List Nat) (x : Nat)
    (hlen : st.trace.length = TRACEBUFLEN) :
    (handle_segv st saved stack x).1.traces ≤ TRACEBUFLEN ∧
    (handle_segv st saved stack x).1.trace.length = TRACEBUFLEN ∧
    (handle_segv st saved stack x).1.trace.take
        (handle_segv st saved stack x).1.traces
      = stack.take TRACEBUFLEN ∧
    OutEvent.frames (stack.take TRACEBUFLEN)
      ∈ (handle_segv st saved stack x).2.1 ∧
    (∀ l, OutEvent.frames l ∈ (handle_segv st saved stack x).2.1 →
      l.length ≤ TRACEBUFLEN) := by
  refine ⟨?_, ?_, ?_, ?_, ?_⟩
  · rw [handle_segv_statics]
    simp [List.length_take]
  · rw [handle_segv_statics]
    simp only [List.length_append, List.length_take, List.length_drop, hlen]
    omega
  · rw [handle_segv_statics]
    exact List.take_left _ _
  · rw [handle_segv_frames]
    simp
  · intro l hl
    rw [handle_segv_frames] at hl
    cases saved <;> simp at hl <;> subst hl <;> simp [List.length_take]

/-- C7 witness: a 100-frame stack is truncated to 64 frames. -/
theorem claim7_backtrace_bounded_witness :
    (handle_segv initBuf .dfl (List.range 100) 11).1.traces
      ≤ TRACEBUFLEN ∧
    (handle_segv initBuf .dfl (List.range 100) 11).1.trace.length
      = TRACEBUFLEN ∧
    (handle_segv initBuf .dfl (List.range 100) 11).1.trace.take
        (handle_segv initBuf .dfl (List.range 100) 11).1.traces
      = (List.range 100).take TRACEBUFLEN ∧
    OutEvent.frames ((List.range 100).take TRACEBUFLEN)
      ∈ (handle_segv initBuf .dfl (List.range 100) 11).2.1 ∧
    (∀ l, OutEvent.frames l
        ∈ (handle_segv initBuf .dfl (List.range 100) 11).2.1 →
      l.length ≤ TRACEBUFLEN) :=
  claim7_backtrace_bounded initBuf .dfl (List.range 100) 11 rfl

/-- C8: after arming, for every list of faults whose delegate is an
original handler that returns, each fault — the n-th as much as the
first — independently emits a complete fresh backtrace block of its own
call chain (reuse of the static buffer corrupts or omits nothing), and
the fault handler stays installed throughout (its installation carries
no auto-reset flag). -/
theorem claim8_repeated_faults (hostAct : HostAct) (f : HandlerFn)
    (stks : List (List Nat)) (s : ProcState)
    (hseg : s.segvAct = ⟨.custom .handle_segv, [], false, false⟩)
    (hsav : s.original_segv_handler = .custom f)
    (hret : hostAct f SIGSEGV = none)
    (halive : s.exited = none) :
    (run hostAct s (stks.map Ev.fault)).2 = (stks.map traceBlock).flatten ∧
    ((run hostAct s (stks.map Ev.fault)).1).segvAct
      = ⟨.custom .handle_segv, [], false, false⟩ ∧
    ((run hostAct s (stks.map Ev.fault)).1).original_segv_handler
      = .custom f ∧
    ((run hostAct s (stks.map Ev.fault)).1).exited = none := by
  have h := run_faults hostAct f stks s hseg hsav hret halive
  exact ⟨h.1, by rw [h.2.1, hseg], by rw [h.2.2.1, hsav], h.2.2.2⟩

/-- C8 witness: two successive faults with different call chains from
the concrete armed state, each printing its own block. -/
theorem claim8_repeated_faults_witness :
    (run hostRet armedState ([[1, 2], [3]].map Ev.fault)).2
      = ([[1, 2], [3]].map traceBlock).flatten ∧
    ((run hostRet armedState ([[1, 2], [3]].map Ev.fault)).1).segvAct
      = ⟨.custom .handle_segv, [], false, false⟩ ∧
    ((run hostRet armedState
        ([[1, 2], [3]].map Ev.fault)).1).original_segv_handler
      = .custom (.host 5) ∧
    ((run hostRet armedState ([[1, 2], [3]].map Ev.fault)).1).exited
      = none :=
  claim8_repeated_faults hostRet (.host 5) [[1, 2], [3]] armedState
    (by decide) (by decide) rfl (by decide)

/-- C9: when `fork` fails the watchdog never exists, so no handshake
delivery ever happens; `set_segv` then never runs and the SIGSEGV
disposition is never armed with the library's fault handler for the
rest of the process lifetime.  The failure path performs exactly the
same host-visible actions as the success path (no error action): the
parent state after `setup` is identical, SIGSEGV untouched. -/
theorem claim9_fork_failure (hostAct : HostAct) (s0 : ProcState)
    (evs : List Ev)
    (h0 : s0.handshakeRuns = 0)
    (h1 : s0.segvAct.sa_handler ≠ .custom .set_segv)
    (h2 : s0.segvAct.sa_handler ≠ .custom .handle_segv)
    (hno : Ev.deliverIPC ∉ evs)
    (hevs : NoLibInstall evs) :
    (setup false s0).2 = [] ∧
    (setup false s0).1 = (setup true s0).1 ∧
    ((setup false s0).1).segvAct = s0.segvAct ∧
    ((run hostAct (setup false s0).1 evs).1).handshakeRuns = 0 ∧
    ((run hostAct (setup false s0).1 evs).1).segvAct.sa_handler
      ≠ .custom .handle_segv ∧
    ((run hostAct (setup false s0).1 evs).1).segvAct.sa_handler
      ≠ .custom .set_segv := by
  have hr := run_unarmed hostAct (setup false s0).1 evs
    (show s0.segvAct.sa_handler ≠ _ from h1)
    (show s0.segvAct.sa_handler ≠ _ from h2) hno hevs
  refine ⟨rfl, rfl, rfl, ?_, hr.2.2, hr.2.1⟩
  rw [hr.1]
  exact h0

/-- C9 witness: fork failure followed by a host handler install and a
fault — tracing never arms. -/
theorem claim9_fork_failure_witness :
    (setup false hostState).2 = [] ∧
    (setup false hostState).1 = (setup true hostState).1 ∧
    ((setup false hostState).1).segvAct = hostState.segvAct ∧
    ((run hostRet (setup false hostState).1
        [.hostInstallSegv hostSegvAct, .fault [1, 2]]).1).handshakeRuns
      = 0 ∧
    ((run hostRet (setup false hostState).1
        [.hostInstallSegv hostSegvAct, .fault [1, 2]]).1).segvAct.sa_handler
      ≠ .custom .handle_segv ∧
    ((run hostRet (setup false hostState).1
        [.hostInstallSegv hostSegvAct, .fault [1, 2]]).1).segvAct.sa_handler
      ≠ .custom .set_segv :=
  claim9_fork_failure hostRet hostState
    [.hostInstallSegv hostSegvAct, .fault [1, 2]]
    rfl (by decide) (by decide) (by decide)
    (by
      intro a ha
      simp only [List.mem_cons, List.mem_singleton] at ha
      rcases ha with ha | ha
      · rw [Ev.hostInstallSegv.injEq] at ha
        subst ha
        decide
      · exact absurd ha (by simp))

/-- C10: capturing the prior SIGSEGV disposition saves only the handler
function pointer — two prior actions with the same handler but any
masks and flags yield the same saved value — and on delegation the
fault handler performs a direct call of the saved function from its own
handler context, leaving the installed SIGSEGV disposition unchanged
rather than restoring the host's full original action. -/
theorem claim10_handler_only_capture (s1 s2 : ProcState)
    (hostAct : HostAct) (st : SegvStatics) (stack : List Nat) (x : Nat)
    (f : HandlerFn)
    (hab : s1.segvAct.sa_handler = s2.segvAct.sa_handler) :
    (set_segvStep s1).original_segv_handler = s1.segvAct.sa_handler ∧
    (set_segvStep s1).original_segv_handler
      = (set_segvStep s2).original_segv_handler ∧
    (handle_segv st (.custom f) stack x).2.2 = .delegated f x ∧
    ((runHandler hostAct s1 stack x).1).segvAct = s1.segvAct ∧
    ((runHandler hostAct s1 stack x).1).ipcAct = s1.ipcAct := by
  refine ⟨rfl, ?_, rfl, (runHandler_fields hostAct s1 stack x).2.1,
    (runHandler_fields hostAct s1 stack x).1⟩
  simp only [set_segvStep]
  exact hab

/-- C10 witness: two prior actions sharing a handler but with different
masks and flags produce the same saved handler; the delegation at the
concrete armed state leaves the installed disposition alone. -/
theorem claim10_handler_only_capture_witness :
    (set_segvStep hostInstalled).original_segv_handler
      = hostInstalled.segvAct.sa_handler ∧
    (set_segvStep hostInstalled).original_segv_handler
      = (set_segvStep
          { hostInstalled with
            segvAct := ⟨.custom (.host 5), [9], true, true⟩ }).original_segv_handler ∧
    (handle_segv initBuf (.custom (.host 5)) [1, 2] SIGSEGV).2.2
      = .delegated (.host 5) SIGSEGV ∧
    ((runHandler hostRet hostInstalled [1, 2] SIGSEGV).1).segvAct
      = hostInstalled.segvAct ∧
    ((runHandler hostRet hostInstalled [1, 2] SIGSEGV).1).ipcAct
      = hostInstalled.ipcAct :=
  claim10_handler_only_capture hostInstalled
    { hostInstalled with segvAct := ⟨.custom (.host 5), [9], true, true⟩ }
    hostRet initBuf [1, 2] SIGSEGV (.host 5) rfl

end SegvCatcher
